import Mathlib

/-! Verification development.

Verification of `aperture_adjust.py` (e3vUtils).

The script displays two camera streams side by side with a mean-intensity
overlay.  We shallowly embed its pure computations (center-region
extraction, grayscale mean, overlay geometry, frame compositing) and its
control flow (stream opening, the read/annotate/display loop, cleanup)
as Lean definitions, and prove the specified properties about them.

Conventions of the embedding:
* Pixel sample values are natural numbers (`uint8` values fit in `Nat`;
  no arithmetic here overflows 8 bits in a way any claim depends on).
* Python `float` arithmetic on the tiny geometry expressions is modelled
  exactly with `ℚ`; `int(x)` (truncation toward zero) is `truncQ`, and
  Python `//` on integers (floor division) is `Int.fdiv`.
* A numpy array frame is a `Frame`: height, width, a flag `nd3` telling
  whether the array is 3-dimensional (`len(shape) == 3`), a channel
  count, and a total data function indexed row/column/channel.
* numpy basic slicing `a[i:j]` clamps the bounds; `npClamp` implements
  the numpy rule for step-1 slices.
-/

/-- Python `int()` on a rational: truncation toward zero. -/
def truncQ (q : ℚ) : ℤ := if 0 ≤ q then ⌊q⌋ else ⌈q⌉

/-- numpy's normalisation of a step-1 slice bound for an axis of length
`n`: negative indices count from the end, then the bound is clamped to
`[0, n]`. -/
def npClamp (n : Nat) (i : ℤ) : Nat :=
  if i < 0 then ((n : ℤ) + i).toNat else min i.toNat n

/-- A decoded video frame / numpy image array.
`nd3 = true` models a 3-dimensional array (`len(shape) == 3`) with
`channels` channels; `nd3 = false` models a 2-dimensional (grayscale)
array, whose samples are read at channel 0. `data` is total; samples
outside `h × w × channels` are irrelevant junk. -/
structure Frame where
  h : Nat
  w : Nat
  nd3 : Bool
  channels : Nat
  data : Nat → Nat → Nat → Nat

instance : Inhabited Frame := ⟨⟨0, 0, false, 0, fun _ _ _ => 0⟩⟩

/-- Constant `CENTER_REGION_PCT = 0.2` (the float literal is modelled by the
rational it denotes). -/
def CENTER_REGION_PCT : ℚ := 1 / 5

/-- numpy 2-axis slice `f[y0:y1, x0:x1]` (channels untouched). -/
def npSlice2 (f : Frame) (y0 y1 x0 x1 : ℤ) : Frame :=
  let ys := npClamp f.h y0
  let ye := npClamp f.h y1
  let xs := npClamp f.w x0
  let xe := npClamp f.w x1
  { h := ye - ys, w := xe - xs, nd3 := f.nd3, channels := f.channels,
    data := fun y x ch => f.data (ys + y) (xs + x) ch }

/-- Function `extract_center_region(frame, pct)`, lines 29-36 of the source.
`region_h = int(h * pct)`, `region_w = int(w * pct)`,
`y_start = (h - region_h) // 2`, `x_start = (w - region_w) // 2`,
returns `frame[y_start : y_start + region_h, x_start : x_start + region_w]`. -/
def extract_center_region (frame : Frame) (pct : ℚ) : Frame :=
  let region_h : ℤ := truncQ ((frame.h : ℚ) * pct)
  let region_w : ℤ := truncQ ((frame.w : ℚ) * pct)
  let y_start : ℤ := ((frame.h : ℤ) - region_h).fdiv 2
  let x_start : ℤ := ((frame.w : ℤ) - region_w).fdiv 2
  npSlice2 frame y_start (y_start + region_h) x_start (x_start + region_w)

section GeomLemmas

variable (n : Nat) (p : ℚ)

/-- With `0 < p`, `int(n * p)` is the floor. -/
lemma truncQ_mul_nonneg (hp : 0 < p) : truncQ ((n : ℚ) * p) = ⌊(n : ℚ) * p⌋ := by
  unfold truncQ
  rw [if_pos]
  positivity

lemma floor_mul_nonneg (hp : 0 < p) : 0 ≤ ⌊(n : ℚ) * p⌋ := by
  apply Int.floor_nonneg.2
  positivity

lemma floor_mul_le (hp1 : p ≤ 1) : ⌊(n : ℚ) * p⌋ ≤ (n : ℤ) := by
  have hn : (0 : ℚ) ≤ (n : ℚ) := Nat.cast_nonneg n
  have h1 : (n : ℚ) * p ≤ (n : ℚ) := by nlinarith
  calc ⌊(n : ℚ) * p⌋ ≤ ⌊(n : ℚ)⌋ := Int.floor_le_floor h1
    _ = (n : ℤ) := Int.floor_natCast n

end GeomLemmas

/-- An in-range slice bound is not modified by numpy's clamping. -/
lemma npClamp_eq_toNat {n : ℕ} {i : ℤ} (h0 : 0 ≤ i) (h1 : i ≤ (n : ℤ)) :
    npClamp n i = i.toNat := by
  unfold npClamp
  rw [if_neg (by omega), min_eq_left (by omega)]

section GeomLemmas2

variable (n : Nat) (p : ℚ)

/-- The slice start `(n - ⌊n*p⌋) // 2` is in range for `0 < p ≤ 1`. -/
lemma start_bounds (hp0 : 0 < p) (hp1 : p ≤ 1) :
    0 ≤ ((n : ℤ) - ⌊(n : ℚ) * p⌋).fdiv 2 ∧
      ((n : ℤ) - ⌊(n : ℚ) * p⌋).fdiv 2 + ⌊(n : ℚ) * p⌋ ≤ (n : ℤ) := by
  have h0 := floor_mul_nonneg n p hp0
  have h1 := floor_mul_le n p hp1
  rw [Int.fdiv_eq_ediv _ (by norm_num)]
  omega

end GeomLemmas2

/-- Under `0 < p ≤ 1` all slice bounds of `extract_center_region` are
in range, so the slice clamps collapse and the extracted region is
exactly the `⌊h*p⌋ × ⌊w*p⌋` rectangle at offset
`((h-⌊h*p⌋)//2, (w-⌊w*p⌋)//2)`. -/
lemma extract_center_region_eq (f : Frame) (p : ℚ) (hp0 : 0 < p) (hp1 : p ≤ 1) :
    extract_center_region f p =
      { h := (⌊(f.h : ℚ) * p⌋).toNat,
        w := (⌊(f.w : ℚ) * p⌋).toNat,
        nd3 := f.nd3, channels := f.channels,
        data := fun y x ch =>
          f.data ((((f.h : ℤ) - ⌊(f.h : ℚ) * p⌋).fdiv 2).toNat + y)
                 ((((f.w : ℤ) - ⌊(f.w : ℚ) * p⌋).fdiv 2).toNat + x) ch } := by
  obtain ⟨hys, hye⟩ := start_bounds f.h p hp0 hp1
  obtain ⟨hxs, hxe⟩ := start_bounds f.w p hp0 hp1
  have hfh := floor_mul_nonneg f.h p hp0
  have hfw := floor_mul_nonneg f.w p hp0
  unfold extract_center_region npSlice2
  simp only [truncQ_mul_nonneg _ p hp0]
  rw [npClamp_eq_toNat hys (by omega), npClamp_eq_toNat (by omega) hye,
    npClamp_eq_toNat hxs (by omega), npClamp_eq_toNat (by omega) hxe]
  simp only [Frame.mk.injEq]
  refine ⟨by omega, by omega, trivial, trivial, trivial⟩

/-- A rectangle as passed to `cv2.rectangle`: top-left corner and size. -/
structure Rect where
  x : ℤ
  y : ℤ
  rectW : ℤ
  rectH : ℤ

/-- The center-region rectangle geometry recomputed by
`overlay_intensity` (source lines 79-82): `region_h = int(h * CENTER_REGION_PCT)`,
`region_w = int(w * CENTER_REGION_PCT)`, `y_start = (h - region_h) // 2`,
`x_start = (w - region_w) // 2`. -/
def overlayRect (h w : Nat) : Rect :=
  let region_h : ℤ := truncQ ((h : ℚ) * CENTER_REGION_PCT)
  let region_w : ℤ := truncQ ((w : ℚ) * CENTER_REGION_PCT)
  let y_start : ℤ := ((h : ℤ) - region_h).fdiv 2
  let x_start : ℤ := ((w : ℤ) - region_w).fdiv 2
  ⟨x_start, y_start, region_w, region_h⟩

/-- A concrete 10×7 BGR frame used to instantiate hypotheses. -/
def sampleFrame : Frame :=
  ⟨10, 7, true, 3, fun y x ch => 100 * y + 10 * x + ch⟩

/-- C1: for every frame of height `H` and width `W` and every fraction
`p ∈ (0, 1]`, `extract_center_region(frame, p)` returns the
sub-rectangle of height `⌊H*p⌋` and width `⌊W*p⌋` whose top-left offset
is `((H - regionH)//2, (W - regionW)//2)`. -/
theorem extract_center_region_geometry (f : Frame) (p : ℚ)
    (hp0 : 0 < p) (hp1 : p ≤ 1) :
    (extract_center_region f p).h = (⌊(f.h : ℚ) * p⌋).toNat ∧
    (extract_center_region f p).w = (⌊(f.w : ℚ) * p⌋).toNat ∧
    ∀ y x ch, (extract_center_region f p).data y x ch =
      f.data ((((f.h : ℤ) - ⌊(f.h : ℚ) * p⌋).fdiv 2).toNat + y)
             ((((f.w : ℤ) - ⌊(f.w : ℚ) * p⌋).fdiv 2).toNat + x) ch := by
  rw [extract_center_region_eq f p hp0 hp1]
  exact ⟨rfl, rfl, fun _ _ _ => rfl⟩

/-- Witness for C1 at the concrete frame `sampleFrame` and `p = 1/5`. -/
theorem extract_center_region_geometry_witness :
    ((0 : ℚ) < 1 / 5 ∧ (1 / 5 : ℚ) ≤ 1) ∧
    (extract_center_region sampleFrame (1 / 5)).h
      = (⌊(sampleFrame.h : ℚ) * (1 / 5)⌋).toNat ∧
    (extract_center_region sampleFrame (1 / 5)).w
      = (⌊(sampleFrame.w : ℚ) * (1 / 5)⌋).toNat ∧
    (extract_center_region sampleFrame (1 / 5)).data 0 0 0 =
      sampleFrame.data
        ((((sampleFrame.h : ℤ) - ⌊(sampleFrame.h : ℚ) * (1 / 5)⌋).fdiv 2).toNat + 0)
        ((((sampleFrame.w : ℤ) - ⌊(sampleFrame.w : ℚ) * (1 / 5)⌋).fdiv 2).toNat + 0) 0 := by
  have h := extract_center_region_geometry sampleFrame (1 / 5)
    (by norm_num) (by norm_num)
  exact ⟨⟨by norm_num, by norm_num⟩, h.1, h.2.1, h.2.2 0 0 0⟩

/-- C2: the region used by the analysis step
(`extract_center_region` at the process-wide constant
`CENTER_REGION_PCT`) and the rectangle drawn by `overlay_intensity`
have exactly the same dimensions and the same top-left offset. -/
theorem overlay_rect_matches_analysis (f : Frame) :
    (extract_center_region f CENTER_REGION_PCT).h
      = (overlayRect f.h f.w).rectH.toNat ∧
    (extract_center_region f CENTER_REGION_PCT).w
      = (overlayRect f.h f.w).rectW.toNat ∧
    ∀ y x ch, (extract_center_region f CENTER_REGION_PCT).data y x ch =
      f.data ((overlayRect f.h f.w).y.toNat + y)
             ((overlayRect f.h f.w).x.toNat + x) ch := by
  rw [extract_center_region_eq f CENTER_REGION_PCT (by norm_num [CENTER_REGION_PCT])
    (by norm_num [CENTER_REGION_PCT])]
  unfold overlayRect
  simp only [truncQ_mul_nonneg _ CENTER_REGION_PCT (by norm_num [CENTER_REGION_PCT])]
  exact ⟨trivial, trivial, fun _ _ _ => trivial⟩

/-- C9: for `H, W ≥ 1` and `p ∈ (0, 1]` the computed region lies inside
the frame: both offsets are non-negative, `y_start + region_h ≤ H` and
`x_start + region_w ≤ W`, and every sample the slice reads is in
bounds. -/
theorem extract_center_region_safe (f : Frame) (p : ℚ)
    (_hh : 1 ≤ f.h) (_hw : 1 ≤ f.w) (hp0 : 0 < p) (hp1 : p ≤ 1) :
    0 ≤ ((f.h : ℤ) - truncQ ((f.h : ℚ) * p)).fdiv 2 ∧
    0 ≤ ((f.w : ℤ) - truncQ ((f.w : ℚ) * p)).fdiv 2 ∧
    ((f.h : ℤ) - truncQ ((f.h : ℚ) * p)).fdiv 2 + truncQ ((f.h : ℚ) * p) ≤ (f.h : ℤ) ∧
    ((f.w : ℤ) - truncQ ((f.w : ℚ) * p)).fdiv 2 + truncQ ((f.w : ℚ) * p) ≤ (f.w : ℤ) ∧
    (∀ y < (extract_center_region f p).h,
      (((f.h : ℤ) - truncQ ((f.h : ℚ) * p)).fdiv 2).toNat + y < f.h) ∧
    (∀ x < (extract_center_region f p).w,
      (((f.w : ℤ) - truncQ ((f.w : ℚ) * p)).fdiv 2).toNat + x < f.w) := by
  have h1 := start_bounds f.h p hp0 hp1
  have h2 := start_bounds f.w p hp0 hp1
  have hfh := floor_mul_nonneg f.h p hp0
  have hfw := floor_mul_nonneg f.w p hp0
  rw [extract_center_region_eq f p hp0 hp1]
  simp only [truncQ_mul_nonneg _ p hp0]
  refine ⟨h1.1, h2.1, h1.2, h2.2, ?_, ?_⟩
  · intro y hy
    omega
  · intro x hx
    omega

/-- Witness for C9 at the concrete frame `sampleFrame` and `p = 1/5`. -/
theorem extract_center_region_safe_witness :
    (1 ≤ sampleFrame.h ∧ 1 ≤ sampleFrame.w ∧ (0 : ℚ) < 1 / 5 ∧ (1 / 5 : ℚ) ≤ 1) ∧
    0 ≤ ((sampleFrame.h : ℤ) - truncQ ((sampleFrame.h : ℚ) * (1 / 5))).fdiv 2 ∧
    ((sampleFrame.h : ℤ) - truncQ ((sampleFrame.h : ℚ) * (1 / 5))).fdiv 2
      + truncQ ((sampleFrame.h : ℚ) * (1 / 5)) ≤ (sampleFrame.h : ℤ) := by
  have h := extract_center_region_safe sampleFrame (1 / 5)
    (by norm_num [sampleFrame]) (by norm_num [sampleFrame]) (by norm_num) (by norm_num)
  exact ⟨⟨by norm_num [sampleFrame], by norm_num [sampleFrame], by norm_num, by norm_num⟩,
    h.1, h.2.2.1⟩

/-! Mean intensity (source lines 39-45).

`calculate_mean_intensity` converts a 3-dimensional region to grayscale
with `cv2.cvtColor(region, cv2.COLOR_BGR2GRAY)` and returns
`float(np.mean(gray))`.  OpenCV's BGR→GRAY conversion is the fixed-point
computation `(1868*B + 9617*G + 4899*R + 8192) >> 14` (the coefficients
are `0.114`, `0.587`, `0.299` scaled by `2^14`; they sum to `16384`
exactly).  A 2-dimensional region is averaged unchanged.  The float mean
is modelled by the exact rational mean. -/

/-- Grayscale value of one pixel as `cv2.cvtColor(·, COLOR_BGR2GRAY)`
computes it; channel order is B, G, R.  2-dimensional input is passed
through unmodified. -/
def grayAt (f : Frame) (y x : Nat) : ℕ :=
  if f.nd3 then
    (1868 * f.data y x 0 + 9617 * f.data y x 1 + 4899 * f.data y x 2 + 8192) / 16384
  else f.data y x 0

/-- Function `calculate_mean_intensity(region)`: grayscale conversion followed by
`np.mean` (sum of all samples over the number of samples). -/
def calculate_mean_intensity (region : Frame) : ℚ :=
  (∑ y ∈ Finset.range region.h, ∑ x ∈ Finset.range region.w, (grayAt region y x : ℚ))
    / ((region.h : ℚ) * (region.w : ℚ))

/-- C3: on a non-empty region whose samples all equal a constant `c`
(with BGR regions having their 3 channels), `calculate_mean_intensity`
returns exactly `c`. -/
theorem calculate_mean_intensity_const (f : Frame) (c : ℕ)
    (hh : 0 < f.h) (hw : 0 < f.w)
    (hch : f.nd3 = true → f.channels = 3)
    (hc : ∀ y < f.h, ∀ x < f.w, ∀ ch < (if f.nd3 then f.channels else 1),
      f.data y x ch = c) :
    calculate_mean_intensity f = (c : ℚ) := by
  have hgray : ∀ y < f.h, ∀ x < f.w, grayAt f y x = c := by
    intro y hy x hx
    unfold grayAt
    cases hnd : f.nd3 with
    | false =>
      rw [if_neg (by simp [hnd])]
      exact hc y hy x hx 0 (by simp [hnd])
    | true =>
      have h3 := hch hnd
      have e0 := hc y hy x hx 0 (by simp [hnd, h3])
      have e1 := hc y hy x hx 1 (by simp [hnd, h3])
      have e2 := hc y hy x hx 2 (by simp [hnd, h3])
      rw [if_pos rfl, e0, e1, e2]
      omega
  have hsum : (∑ y ∈ Finset.range f.h, ∑ x ∈ Finset.range f.w, (grayAt f y x : ℚ))
      = (f.h : ℚ) * ((f.w : ℚ) * (c : ℚ)) := by
    rw [Finset.sum_congr rfl (fun y hy => Finset.sum_congr rfl
      (fun x hx => by
        rw [hgray y (Finset.mem_range.1 hy) x (Finset.mem_range.1 hx)]))]
    simp [Finset.sum_const, mul_assoc]
  unfold calculate_mean_intensity
  rw [hsum]
  have h1 : (f.h : ℚ) ≠ 0 := by positivity
  have h2 : (f.w : ℚ) ≠ 0 := by positivity
  field_simp
  ring

/-- The spec's scenario region: 100×100, single channel, all samples 255. -/
def whiteRegion : Frame := ⟨100, 100, false, 1, fun _ _ _ => 255⟩

/-- Witness for C3: the all-white 100×100 single-channel region has mean
intensity exactly `255`. -/
theorem calculate_mean_intensity_const_witness :
    (0 < whiteRegion.h ∧ 0 < whiteRegion.w) ∧
    calculate_mean_intensity whiteRegion = (255 : ℚ) := by
  refine ⟨⟨by norm_num [whiteRegion], by norm_num [whiteRegion]⟩, ?_⟩
  exact calculate_mean_intensity_const whiteRegion 255
    (by norm_num [whiteRegion]) (by norm_num [whiteRegion])
    (by intro h; simp [whiteRegion] at h)
    (by intro y _ x _ ch _; rfl)

/-! Compositor (source lines 146-165).

If the two annotated frames have different heights, both are resized
with `cv2.resize(f, (int(f.w * target_h / f.h), target_h))` where
`target_h` is the smaller height; then `np.hstack` concatenates them
horizontally. -/

/-- Call `cv2.resize(f, (int(f.w * target_h / f.h), target_h))` as made on
lines 149-162.  The output dimensions are exact; the resampled pixel
content is produced by OpenCV (bilinear by default) and is modelled
here as nearest-neighbour sampling — no claim depends on resampled
pixel values, only on the output dimensions. -/
def resizeToHeight (f : Frame) (target_h : Nat) : Frame :=
  { h := target_h,
    w := f.w * target_h / f.h,
    nd3 := f.nd3, channels := f.channels,
    data := fun y x ch => f.data (y * f.h / target_h) (x * f.h / target_h) ch }

/-- Call `np.hstack([A, B])` on two arrays of equal height and channel
count (numpy raises on mismatched heights or channel counts; the
claims only use matching inputs). -/
def hstack (A B : Frame) : Frame :=
  { h := A.h, w := A.w + B.w, nd3 := A.nd3, channels := A.channels,
    data := fun y x ch =>
      if x < A.w then A.data y x ch else B.data y (x - A.w) ch }

/-- The compositing step of the main loop (lines 146-165): when heights
differ both frames are rescaled to the smaller height first, then
concatenated horizontally. -/
def combine (A B : Frame) : Frame :=
  if A.h = B.h then hstack A B
  else
    let target_h := min A.h B.h
    hstack (resizeToHeight A target_h) (resizeToHeight B target_h)

/-- C4: for frames of differing positive heights, the composite has
height `min(heightA, heightB)` and total width the sum of the two
proportionally rescaled widths (each scaled by the minimum height over
that frame's height, truncated toward zero). -/
theorem combine_diff_heights (A B : Frame)
    (_hA : 0 < A.h) (_hB : 0 < B.h) (hne : A.h ≠ B.h) :
    (combine A B).h = min A.h B.h ∧
    (combine A B).w
      = A.w * min A.h B.h / A.h + B.w * min A.h B.h / B.h := by
  unfold combine
  rw [if_neg hne]
  exact ⟨rfl, rfl⟩

/-- A concrete 4×6 frame. -/
def frameA : Frame := ⟨4, 6, true, 3, fun y x ch => y + x + ch⟩

/-- A concrete 2×4 frame. -/
def frameB : Frame := ⟨2, 4, true, 3, fun y x ch => 2 * y + x + ch⟩

/-- A concrete 4×5 frame. -/
def frameC : Frame := ⟨4, 5, true, 3, fun y x ch => 3 * y + x + ch⟩

/-- Witness for C4 on the concrete frames `frameA` (4×6) and `frameB`
(2×4). -/
theorem combine_diff_heights_witness :
    (0 < frameA.h ∧ 0 < frameB.h ∧ frameA.h ≠ frameB.h) ∧
    (combine frameA frameB).h = min frameA.h frameB.h ∧
    (combine frameA frameB).w
      = frameA.w * min frameA.h frameB.h / frameA.h
        + frameB.w * min frameA.h frameB.h / frameB.h := by
  have h := combine_diff_heights frameA frameB
    (by norm_num [frameA]) (by norm_num [frameB])
    (by norm_num [frameA, frameB])
  exact ⟨⟨by norm_num [frameA], by norm_num [frameB],
    by norm_num [frameA, frameB]⟩, h.1, h.2⟩

/-- C5: for frames of equal height (and channel count), the composite
keeps that height, has width `widthA + widthB`, its left `widthA`
columns are pixel-identical to `A` and its right `widthB` columns are
pixel-identical to `B`. -/
theorem combine_same_height (A B : Frame)
    (hh : A.h = B.h) (_hch : A.channels = B.channels) (_hnd : A.nd3 = B.nd3) :
    (combine A B).h = A.h ∧
    (combine A B).w = A.w + B.w ∧
    (∀ y x ch, x < A.w → (combine A B).data y x ch = A.data y x ch) ∧
    (∀ y x ch, (combine A B).data y (A.w + x) ch = B.data y x ch) := by
  unfold combine
  rw [if_pos hh]
  refine ⟨rfl, rfl, ?_, ?_⟩
  · intro y x ch hx
    show (if x < A.w then A.data y x ch else B.data y (x - A.w) ch) = A.data y x ch
    rw [if_pos hx]
  · intro y x ch
    show (if A.w + x < A.w then A.data y (A.w + x) ch
      else B.data y (A.w + x - A.w) ch) = B.data y x ch
    rw [if_neg (by omega)]
    congr 1
    omega

/-- Witness for C5 on the concrete frames `frameA` (4×6) and `frameC`
(4×5). -/
theorem combine_same_height_witness :
    (frameA.h = frameC.h ∧ frameA.channels = frameC.channels
      ∧ frameA.nd3 = frameC.nd3) ∧
    (combine frameA frameC).h = frameA.h ∧
    (combine frameA frameC).w = frameA.w + frameC.w ∧
    (combine frameA frameC).data 1 2 0 = frameA.data 1 2 0 ∧
    (combine frameA frameC).data 1 (frameA.w + 2) 0 = frameC.data 1 2 0 := by
  have h := combine_same_height frameA frameC rfl rfl rfl
  exact ⟨⟨rfl, rfl, rfl⟩, h.1, h.2.1,
    h.2.2.1 1 2 0 (by norm_num [frameA]), h.2.2.2 1 2 0⟩

/-! Overlay renderer (source lines 48-91).

`overlay_intensity` copies its argument (`frame = frame.copy()`, line
50) and then draws on the copy in place: two `cv2.putText` calls and
one `cv2.rectangle` call.  To state non-mutation of the caller's
buffer, numpy arrays are modelled as indices into an explicit heap of
buffers (`Store`); `frame.copy()` appends a fresh buffer and the draw
calls update the heap at the fresh index only.

Glyph rasterization is OpenCV-internal; `putText` is modelled as
writing the text colour at the anchor pixel.  No claim depends on the
drawn glyph shapes — only on which buffer the draws write to and on the
rectangle's geometry. -/

/-- Colour `(255, 255, 255)`. -/
def white : Nat → Nat := fun _ => 255

/-- Colour `(0, 255, 0)` in BGR channel order. -/
def green : Nat → Nat := fun ch => if ch = 1 then 255 else 0

/-- Call `cv2.putText(f, text, org, font, scale, color, thickness)`, drawing
in place; modelled as writing `color` at the anchor `org = (x, y)`. -/
def putText (f : Frame) (_text : String) (org : ℤ × ℤ) (_scale : ℚ)
    (color : Nat → Nat) (_thickness : Nat) : Frame :=
  { f with data := fun y x ch =>
      if (y : ℤ) = org.2 ∧ (x : ℤ) = org.1 then color ch else f.data y x ch }

/-- Membership in the border band of thickness `t` of the axis-aligned
rectangle with corners `pt1 = (x0, y0)` and `pt2 = (x1, y1)`. -/
def onRectBorder (pt1 pt2 : ℤ × ℤ) (t : Nat) (y x : Nat) : Prop :=
  pt1.1 ≤ (x : ℤ) ∧ (x : ℤ) ≤ pt2.1 ∧ pt1.2 ≤ (y : ℤ) ∧ (y : ℤ) ≤ pt2.2 ∧
    ((x : ℤ) < pt1.1 + t ∨ pt2.1 - t < (x : ℤ) ∨
     (y : ℤ) < pt1.2 + t ∨ pt2.2 - t < (y : ℤ))

instance (pt1 pt2 : ℤ × ℤ) (t : Nat) (y x : Nat) :
    Decidable (onRectBorder pt1 pt2 t y x) := by
  unfold onRectBorder
  infer_instance

/-- Call `cv2.rectangle(f, pt1, pt2, color, thickness)`, drawing the border
band in place. -/
def cvRectangle (f : Frame) (pt1 pt2 : ℤ × ℤ) (color : Nat → Nat)
    (t : Nat) : Frame :=
  { f with data := fun y x ch =>
      if onRectBorder pt1 pt2 t y x then color ch else f.data y x ch }

/-- The drawing body of `overlay_intensity` (lines 51-89), applied to
the copied buffer: label text at `(10, 30)` in white, intensity text at
`(10, h - 20)` in green, and the center-region rectangle in green. -/
def overlayDraw (f : Frame) (intensity : ℚ) (label : String) : Frame :=
  let f1 := putText f label (10, 30) (4 / 5) white 2
  let f2 := putText f1 ("Intensity: " ++ toString intensity)
    (10, (f.h : ℤ) - 20) 1 green 2
  let r := overlayRect f.h f.w
  cvRectangle f2 (r.x, r.y) (r.x + r.rectW, r.y + r.rectH) green 2

/-- A heap of image buffers; a numpy array variable is an index into
it.  Out-of-range reads yield the default (empty) frame. -/
abbrev Store := List Frame

/-- Function `overlay_intensity(frame, intensity, label)` (lines 48-91) over the
buffer heap: `frame.copy()` allocates a fresh buffer holding the same
pixels, the three draws mutate that fresh buffer in place, and the
index of the new buffer is returned. -/
def overlay_intensity (s : Store) (i : Nat) (intensity : ℚ)
    (label : String) : Store × Nat :=
  let j := s.length
  let s2 := s ++ [s.getD i default]
  (s2.set j (overlayDraw (s2.getD j default) intensity label), j)

lemma store_set_append_getD (s : Store) (v w : Frame) (i : Nat)
    (hi : i < s.length) :
    ((s ++ [v]).set s.length w).getD i default = s.getD i default := by
  rw [List.getD_eq_getElem?_getD, List.getD_eq_getElem?_getD,
    List.getElem?_set_ne (by omega), List.getElem?_append, if_pos hi]

/-- C8: `overlay_intensity` returns a fresh buffer and leaves every
pixel of the input frame's buffer unchanged after the call. -/
theorem overlay_intensity_no_mutation (s : Store) (i : Nat) (q : ℚ)
    (label : String) (hi : i < s.length) :
    ((overlay_intensity s i q label).1).getD i default = s.getD i default ∧
    (overlay_intensity s i q label).2 ≠ i ∧
    ∀ y x ch,
      (((overlay_intensity s i q label).1).getD i default).data y x ch
        = (s.getD i default).data y x ch := by
  have hmain : ((overlay_intensity s i q label).1).getD i default
      = s.getD i default :=
    store_set_append_getD s _ _ i hi
  refine ⟨hmain, ?_, fun y x ch => by rw [hmain]⟩
  show s.length ≠ i
  omega

/-- Witness for C8 on a one-buffer heap holding `sampleFrame`. -/
theorem overlay_intensity_no_mutation_witness :
    (0 < ([sampleFrame] : Store).length) ∧
    ((overlay_intensity [sampleFrame] 0 (255 / 2) "Reference: cam1").1).getD
        0 default
      = ([sampleFrame] : Store).getD 0 default := by
  have h := overlay_intensity_no_mutation [sampleFrame] 0 (255 / 2)
    "Reference: cam1" (by norm_num)
  exact ⟨by norm_num, h.1⟩

/-! The per-iteration pipeline of the display loop
(source lines 131-165). -/

/-- One loop iteration's processing (lines 131-165): extract both
center regions from the frames just read, compute both intensities,
annotate both frames (each on a fresh copy in the buffer heap), and
composite the annotated frames.  Returns the two intensities and the
composite. -/
def processPair (refFrame adjFrame : Frame) (refLabel adjLabel : String) :
    ℚ × ℚ × Frame :=
  let s : Store := [refFrame, adjFrame]
  let ref_region := extract_center_region (s.getD 0 default) CENTER_REGION_PCT
  let adj_region := extract_center_region (s.getD 1 default) CENTER_REGION_PCT
  let ref_intensity := calculate_mean_intensity ref_region
  let adj_intensity := calculate_mean_intensity adj_region
  let r1 := overlay_intensity s 0 ref_intensity refLabel
  let r2 := overlay_intensity r1.1 1 adj_intensity adjLabel
  (ref_intensity, adj_intensity,
    combine ((r2.1).getD r1.2 default) ((r2.1).getD r2.2 default))

/-- C10: the intensity reported for each camera is computed from the
original, un-annotated frame — analysis precedes annotation and
annotation draws on a copy — so the overlaid label, text and rectangle
never influence the computed intensity (the intensities are those of
the raw frames and are independent of the labels drawn). -/
theorem intensity_from_original (refFrame adjFrame : Frame)
    (l1 l2 l1' l2' : String) :
    (processPair refFrame adjFrame l1 l2).1
      = calculate_mean_intensity
          (extract_center_region refFrame CENTER_REGION_PCT) ∧
    (processPair refFrame adjFrame l1 l2).2.1
      = calculate_mean_intensity
          (extract_center_region adjFrame CENTER_REGION_PCT) ∧
    (processPair refFrame adjFrame l1 l2).1
      = (processPair refFrame adjFrame l1' l2').1 ∧
    (processPair refFrame adjFrame l1 l2).2.1
      = (processPair refFrame adjFrame l1' l2').2.1 :=
  ⟨rfl, rfl, rfl, rfl⟩

/-! Display loop control flow (source lines 94-175).

`main` constructs both `cv2.VideoCapture` objects, checks
`ref_cap.isOpened()` and exits with status 1 if it fails (line 113 —
note `adj_cap` is not released on this path), then checks
`adj_cap.isOpened()`, releasing `ref_cap` and exiting with status 1 if
that fails (lines 115-118).  The `while True` loop reads one frame from
each source per iteration, breaks on read failure or on a `q`
keypress; the `try/finally` wrapping the loop releases both captures
exactly once on any exit from the streaming phase.  An uncaught
exception propagates after the `finally` block and makes the Python
process exit with a non-zero status; a read-failure break reaches the
end of `main` normally, so the process exits with status 0. -/

/-- The environment of one run: whether each capture opens, the result
pair of the two reads of each iteration, whether `q` is pressed during
an iteration's `waitKey`, and whether an unexpected exception is
raised while processing an iteration. -/
structure World where
  refOpens : Bool
  adjOpens : Bool
  readOk : Nat → Bool × Bool
  quit : Nat → Bool
  raises : Nat → Bool

/-- How the streaming loop exited. -/
inductive LoopExit where
  | quit
  | readFail
  | exc
deriving DecidableEq

/-- Observable outcome of a run: the process exit status, how many
times each capture's `release()` ran, how many `read()` calls were
made, and how the loop exited (`none` when the loop was never
entered). -/
structure RunResult where
  exitCode : Nat
  refReleases : Nat
  adjReleases : Nat
  framesRead : Nat
  cause : Option LoopExit
deriving DecidableEq

/-- Loop `while True` (the streaming loop) (lines 123-170) at iteration `i` with `reads`
read calls made so far; `fuel` bounds how many iterations are modelled
(`none` = still streaming after `fuel` iterations).  Each iteration
reads one frame from each source (lines 124-125), breaks if either
read failed (lines 127-129), processes and displays the composite
(during which an exception may be raised), and breaks if `q` was
pressed (lines 169-170). -/
def runLoop (w : World) : Nat → Nat → Nat → Option (LoopExit × Nat)
  | _, _, 0 => none
  | i, reads, fuel + 1 =>
    let reads2 := reads + 2
    if ¬((w.readOk i).1 = true ∧ (w.readOk i).2 = true) then
      some (.readFail, reads2)
    else if w.raises i then some (.exc, reads2)
    else if w.quit i then some (.quit, reads2)
    else runLoop w (i + 1) reads2 fuel

/-- Function `main()` (lines 94-175) as a function of the run environment.
Returns `none` when the loop is still running after `fuel`
iterations. -/
def mainRun (w : World) (fuel : Nat) : Option RunResult :=
  if ¬ w.refOpens then
    -- lines 111-113: report, `sys.exit(1)`; `adj_cap` is NOT released here
    some ⟨1, 0, 0, 0, none⟩
  else if ¬ w.adjOpens then
    -- lines 115-118: report, `ref_cap.release()`, `sys.exit(1)`
    some ⟨1, 1, 0, 0, none⟩
  else
    match runLoop w 0 0 fuel with
    | none => none
    | some (e, reads) =>
      -- lines 172-175: the `finally` block releases both captures once;
      -- an exception then propagates (non-zero process exit), while
      -- quit and read-failure reach the end of `main` (exit status 0)
      some ⟨(match e with | .exc => 1 | _ => 0), 1, 1, reads, some e⟩

/-- Environment in which the reference stream fails to open while the
adjustment stream opens successfully. -/
def refFailWorld : World :=
  ⟨false, true, fun _ => (true, true), fun _ => false, fun _ => false⟩

/-- Counterexample to C6 as stated: with the reference open failing and
the adjustment open succeeding, the program exits with status 1 and
never reads, but the successfully opened adjustment capture is never
released — `sys.exit(1)` on line 113 runs before any release of
`adj_cap`, so "releases any successfully opened source" fails. -/
theorem open_failure_counterexample :
    refFailWorld.adjOpens = true ∧
    mainRun refFailWorld 1 = some ⟨1, 0, 0, 0, none⟩ :=
  ⟨rfl, rfl⟩

/-- C6 (amended): whenever either open fails, the program reports the
failure, terminates with exit status 1 and never attempts a frame
read; the reference capture is released exactly when it opened (and
the adjustment open failed), while the adjustment capture is never
released on these paths, even when it opened successfully. -/
theorem open_failure_behaviour (w : World) (fuel : Nat)
    (h : ¬(w.refOpens = true ∧ w.adjOpens = true)) :
    ∃ r, mainRun w fuel = some r ∧ r.exitCode = 1 ∧ r.framesRead = 0 ∧
      r.refReleases = (if w.refOpens then 1 else 0) ∧
      r.adjReleases = 0 := by
  unfold mainRun
  cases hr : w.refOpens with
  | false =>
    exact ⟨⟨1, 0, 0, 0, none⟩, by simp, rfl, rfl, by simp, rfl⟩
  | true =>
    cases ha : w.adjOpens with
    | false =>
      exact ⟨⟨1, 1, 0, 0, none⟩, by simp, rfl, rfl, by simp, rfl⟩
    | true => exact absurd ⟨hr, ha⟩ h

/-- Environment in which the reference stream opens but the adjustment
stream fails to open. -/
def adjFailWorld : World :=
  ⟨true, false, fun _ => (true, true), fun _ => false, fun _ => false⟩

/-- Witness for C6 (amended) in `adjFailWorld`. -/
theorem open_failure_behaviour_witness :
    (¬(adjFailWorld.refOpens = true ∧ adjFailWorld.adjOpens = true)) ∧
    ∃ r, mainRun adjFailWorld 0 = some r ∧ r.exitCode = 1 ∧
      r.framesRead = 0 ∧
      r.refReleases = (if adjFailWorld.refOpens then 1 else 0) ∧
      r.adjReleases = 0 := by
  have h := open_failure_behaviour adjFailWorld 0 (by simp [adjFailWorld])
  exact ⟨by simp [adjFailWorld], h⟩

/-- C7: once both streams opened, on every exit from the streaming
phase (normal quit, mid-stream read failure, or exception) both
capture handles are released exactly once; a mid-stream read failure
breaks the loop, reaches the cleanup, and the process exits with
status 0 (as does a quit, while an exception exits non-zero). -/
theorem streaming_cleanup (w : World) (fuel : Nat) (r : RunResult)
    (hro : w.refOpens = true) (hao : w.adjOpens = true)
    (h : mainRun w fuel = some r) :
    r.refReleases = 1 ∧ r.adjReleases = 1 ∧
    (r.cause = some .readFail → r.exitCode = 0) ∧
    (r.cause = some .quit → r.exitCode = 0) ∧
    (r.cause = some .exc → r.exitCode = 1) := by
  unfold mainRun at h
  rw [if_neg (by simp [hro]), if_neg (by simp [hao])] at h
  rcases hrl : runLoop w 0 0 fuel with _ | ⟨e, reads⟩ <;> rw [hrl] at h
  · exact Option.noConfusion h
  · cases Option.some.inj h
    cases e <;> exact ⟨rfl, rfl, by simp, by simp, by simp⟩

/-- Environment in which both streams open and the reference read
fails in the first iteration. -/
def readFailWorld : World :=
  ⟨true, true, fun _ => (false, true), fun _ => false, fun _ => false⟩

/-- Witness for C7 in `readFailWorld`: the loop exits on the failed
read after one iteration (two read calls), both captures are released
once, and the exit status is 0. -/
theorem streaming_cleanup_witness :
    (readFailWorld.refOpens = true ∧ readFailWorld.adjOpens = true ∧
      mainRun readFailWorld 1 = some ⟨0, 1, 1, 2, some .readFail⟩) ∧
    (⟨0, 1, 1, 2, some .readFail⟩ : RunResult).refReleases = 1 ∧
    (⟨0, 1, 1, 2, some .readFail⟩ : RunResult).adjReleases = 1 ∧
    ((⟨0, 1, 1, 2, some .readFail⟩ : RunResult).cause = some .readFail →
      (⟨0, 1, 1, 2, some .readFail⟩ : RunResult).exitCode = 0) := by
  have h := streaming_cleanup readFailWorld 1 ⟨0, 1, 1, 2, some .readFail⟩
    rfl rfl (by decide)
  exact ⟨⟨rfl, rfl, by decide⟩, h.1, h.2.1, h.2.2.1⟩
